import Mathlib

/-!
Verification of `kindr/rotations/eigen/LocalAngularVelocity.hpp`.

The header defines `LocalAngularVelocity<PrimType_, Usage_>` (a 3-vector of
scalar components tagged with a usage convention) together with the
`RotationDiffConversionTraits` specializations that convert the time
derivative of a rotation, given in one of several parameterizations, into
the body-frame angular velocity.  Scalars are modelled by the real numbers.
-/

noncomputable section

namespace Kindr

/-- Usage convention tag (`RotationUsage` of the kindr rotation headers). -/
inductive RotationUsage where
  | ACTIVE
  | PASSIVE
deriving DecidableEq

/-- A fixed-size 3-vector of scalars, modelling `Eigen::Matrix<Scalar, 3, 1>`. -/
structure Vec3 where
  x : ℝ
  y : ℝ
  z : ℝ

/-- Componentwise addition of 3-vectors (Eigen vector `+`). -/
def Vec3.add (a b : Vec3) : Vec3 := ⟨a.x + b.x, a.y + b.y, a.z + b.z⟩

/-- Scaling of a 3-vector by a scalar on the right (Eigen `v * s`). -/
def Vec3.smul (a : Vec3) (s : ℝ) : Vec3 := ⟨a.x * s, a.y * s, a.z * s⟩

/-- Euclidean norm of a 3-vector (Eigen `.norm()`). -/
def Vec3.norm (a : Vec3) : ℝ := Real.sqrt (a.x * a.x + a.y * a.y + a.z * a.z)

/-- A fixed-size 3×3 matrix of scalars, modelling `Eigen::Matrix<Scalar, 3, 3>`;
`aij` is the entry in row `i`, column `j` (1-based). -/
structure Mat3 where
  a11 : ℝ
  a12 : ℝ
  a13 : ℝ
  a21 : ℝ
  a22 : ℝ
  a23 : ℝ
  a31 : ℝ
  a32 : ℝ
  a33 : ℝ

/-- The zero 3×3 matrix. -/
def Mat3.zero : Mat3 := ⟨0, 0, 0, 0, 0, 0, 0, 0, 0⟩

/-- Matrix transpose (Eigen `.transpose()`). -/
def Mat3.transpose (A : Mat3) : Mat3 :=
  ⟨A.a11, A.a21, A.a31, A.a12, A.a22, A.a32, A.a13, A.a23, A.a33⟩

/-- Matrix product (Eigen `*` on 3×3 matrices). -/
def Mat3.mul (A B : Mat3) : Mat3 :=
  ⟨A.a11 * B.a11 + A.a12 * B.a21 + A.a13 * B.a31,
   A.a11 * B.a12 + A.a12 * B.a22 + A.a13 * B.a32,
   A.a11 * B.a13 + A.a12 * B.a23 + A.a13 * B.a33,
   A.a21 * B.a11 + A.a22 * B.a21 + A.a23 * B.a31,
   A.a21 * B.a12 + A.a22 * B.a22 + A.a23 * B.a32,
   A.a21 * B.a13 + A.a22 * B.a23 + A.a23 * B.a33,
   A.a31 * B.a11 + A.a32 * B.a21 + A.a33 * B.a31,
   A.a31 * B.a12 + A.a32 * B.a22 + A.a33 * B.a32,
   A.a31 * B.a13 + A.a32 * B.a23 + A.a33 * B.a33⟩

/-- Matrix-vector product (Eigen `M * v` for a 3×3 matrix and a 3-vector). -/
def Mat3.mulVec (A : Mat3) (v : Vec3) : Vec3 :=
  ⟨A.a11 * v.x + A.a12 * v.y + A.a13 * v.z,
   A.a21 * v.x + A.a22 * v.y + A.a23 * v.z,
   A.a31 * v.x + A.a32 * v.y + A.a33 * v.z⟩

/-- Modelled from the spec: `linear_algebra::getSkewMatrixFromVector`
(`LinearAlgebra.hpp` is not among the sources).  It returns the
skew-symmetric matrix `S` with `S·u = v × u` for every `u`. -/
def getSkewMatrixFromVector (v : Vec3) : Mat3 :=
  ⟨0, -v.z, v.y, v.z, 0, -v.x, -v.y, v.x, 0⟩

/-- Modelled from the spec: `linear_algebra::getVectorFromSkewMatrix`
(`LinearAlgebra.hpp` is not among the sources).  It extracts the vector
`(S[2][1], S[0][2], S[1][0])` from a skew-symmetric matrix. -/
def getVectorFromSkewMatrix (S : Mat3) : Vec3 := ⟨S.a32, S.a13, S.a21⟩

/-- `LocalAngularVelocity<PrimType_, Usage_>`: three scalar components with a
type-level usage tag.  The C++ class privately derives from the Eigen vector;
here the components are stored directly. -/
structure LocalAngularVelocity (usage : RotationUsage) where
  x : ℝ
  y : ℝ
  z : ℝ

namespace LocalAngularVelocity

/-- The default constructor `LocalAngularVelocity()`: all components zero. -/
def zero {u : RotationUsage} : LocalAngularVelocity u := ⟨0, 0, 0⟩

/-- The constructor from an implementation vector
(`explicit LocalAngularVelocity(const Base&)`). -/
def ofVec3 {u : RotationUsage} (v : Vec3) : LocalAngularVelocity u :=
  ⟨v.x, v.y, v.z⟩

/-- The usage tag a value carries at the type level. -/
def usageOf {u : RotationUsage} (_ : LocalAngularVelocity u) : RotationUsage := u

/-- `operator+=` (the spec's `accumulateAdd`): the C++ member is templated
over an arbitrary `Other_` exposing `toImplementation()`, so it accepts in
particular a `LocalAngularVelocity` of either usage convention; it adds the
implementation vectors componentwise. -/
def accumulateAdd {u1 u2 : RotationUsage}
    (self : LocalAngularVelocity u1) (other : LocalAngularVelocity u2) :
    LocalAngularVelocity u1 :=
  ⟨self.x + other.x, self.y + other.y, self.z + other.z⟩

/-- `operator-=` (the spec's `accumulateSubtract`): templated over an
arbitrary `Other_` exactly like `operator+=`. -/
def accumulateSubtract {u1 u2 : RotationUsage}
    (self : LocalAngularVelocity u1) (other : LocalAngularVelocity u2) :
    LocalAngularVelocity u1 :=
  ⟨self.x - other.x, self.y - other.y, self.z - other.z⟩

/-- Modelled from the spec: `AngularVelocityBase::operator+`
(`RotationDiffBase.hpp` is not among the sources); per the spec it operates
only between values of the same usage convention and returns the
componentwise sum. -/
def add {u : RotationUsage} (a b : LocalAngularVelocity u) :
    LocalAngularVelocity u :=
  ⟨a.x + b.x, a.y + b.y, a.z + b.z⟩

/-- Modelled from the spec: `AngularVelocityBase::operator-`
(`RotationDiffBase.hpp` is not among the sources); same-usage componentwise
difference. -/
def sub {u : RotationUsage} (a b : LocalAngularVelocity u) :
    LocalAngularVelocity u :=
  ⟨a.x - b.x, a.y - b.y, a.z - b.z⟩

end LocalAngularVelocity

/-- Components `(w, x, y, z)` of a quaternion; used for both the rotation
quaternion and the quaternion rate. -/
structure Quat where
  w : ℝ
  x : ℝ
  y : ℝ
  z : ℝ

/-- A 4-vector of scalars (`Eigen::Matrix<Scalar, 4, 1>`); the fields `c1 …
c4` are its four entries in order. -/
structure Vec4 where
  c1 : ℝ
  c2 : ℝ
  c3 : ℝ
  c4 : ℝ

/-- Dot product of two 4-vectors. -/
def Vec4.dot (a b : Vec4) : ℝ := a.c1 * b.c1 + a.c2 * b.c2 + a.c3 * b.c3 + a.c4 * b.c4

/-- Modelled from the spec: `Quaternion::vector()` (`QuaternionEigen.hpp` is
not among the sources) returns the `(x, y, z, w)`-ordered component vector. -/
def Quat.vector (q : Quat) : Vec4 := ⟨q.x, q.y, q.z, q.w⟩

/-- Euler angles in Z-Y'-X'' convention: the accessor values `roll()`,
`pitch()`, `yaw()` of `EulerAnglesZyx`; the same record also models the rate
triple `EulerAnglesZyxDiff`. -/
structure EulerAnglesZyx where
  roll : ℝ
  pitch : ℝ
  yaw : ℝ

/-- Euler angles in X-Y'-Z'' convention: the accessor values `roll()`,
`pitch()`, `yaw()` of `EulerAnglesXyz`; the same record also models the rate
triple `EulerAnglesXyzDiff`. -/
structure EulerAnglesXyz where
  roll : ℝ
  pitch : ℝ
  yaw : ℝ

/-- `RotationDiffConversionTraits<LocalAngularVelocity, RotationQuaternionDiff,
RotationQuaternion>::convert` (lines 202-208): builds the 3×4 matrix `H_bar`
row by row from the rotation quaternion's components and returns
`2 * H_bar * rquatdiff.toQuaternion().vector()`. -/
def convertQuaternion (rquat rquatdiff : Quat) :
    LocalAngularVelocity RotationUsage.ACTIVE :=
  let r1 : Vec4 := ⟨-rquat.x, rquat.w, rquat.z, -rquat.y⟩
  let r2 : Vec4 := ⟨-rquat.y, -rquat.z, rquat.w, rquat.x⟩
  let r3 : Vec4 := ⟨-rquat.z, rquat.y, -rquat.x, rquat.w⟩
  LocalAngularVelocity.ofVec3
    ⟨2 * Vec4.dot r1 rquatdiff.vector,
     2 * Vec4.dot r2 rquatdiff.vector,
     2 * Vec4.dot r3 rquatdiff.vector⟩

/-- `RotationDiffConversionTraits<LocalAngularVelocity, RotationMatrixDiff
(ACTIVE), RotationMatrix (ACTIVE)>::convert` (lines 215-217):
`getVectorFromSkewMatrix(R * dR.transpose())`. -/
def convertRotationMatrixActive (R dR : Mat3) :
    LocalAngularVelocity RotationUsage.ACTIVE :=
  LocalAngularVelocity.ofVec3 (getVectorFromSkewMatrix (Mat3.mul R dR.transpose))

/-- Modelled from the spec: `RotationMatrix::inverted()` (`RotationEigen.hpp`
is not among the sources); the inverse of a rotation matrix is its
transpose. -/
def RotationMatrix.inverted (R : Mat3) : Mat3 := R.transpose

/-- `RotationDiffConversionTraits<LocalAngularVelocity, RotationMatrixDiff
(PASSIVE), RotationMatrix (PASSIVE)>::convert` (lines 225-227):
`getVectorFromSkewMatrix(R.inverted() * dP)`; the target type is the ACTIVE
local angular velocity. -/
def convertRotationMatrixPassive (R dP : Mat3) :
    LocalAngularVelocity RotationUsage.ACTIVE :=
  LocalAngularVelocity.ofVec3
    (getVectorFromSkewMatrix (Mat3.mul (RotationMatrix.inverted R) dP))

/-- `RotationDiffConversionTraits<LocalAngularVelocity, AngleAxisDiff,
AngleAxis>::convert` (lines 234-236):
`axis*dangle + daxis*sin(angle) + skew(axis)*daxis*(1-cos(angle))`. -/
def convertAngleAxis (angle : ℝ) (axis : Vec3) (dangle : ℝ) (daxis : Vec3) :
    LocalAngularVelocity RotationUsage.ACTIVE :=
  LocalAngularVelocity.ofVec3
    (Vec3.add (Vec3.add (axis.smul dangle) (daxis.smul (Real.sin angle)))
      (((getSkewMatrixFromVector axis).mulVec daxis).smul (1 - Real.cos angle)))

/-- `RotationDiffConversionTraits<LocalAngularVelocity, RotationVectorDiff,
RotationVector>::convert` (lines 242-282): the expanded closed form with
`v = rotationVector.vector().norm()` and the intermediate terms `t2 … t13`
written exactly as in the source. -/
def convertRotationVector (rv drv : Vec3) :
    LocalAngularVelocity RotationUsage.ACTIVE :=
  let v := rv.norm
  let v1 := rv.x
  let v2 := rv.y
  let v3 := rv.z
  let dv1 := drv.x
  let dv2 := drv.y
  let dv3 := drv.z
  let t2 := 1 / (v * v * v)
  let t3 := Real.cos v
  let t4 := Real.sin v
  let t5 := v1 * v1
  let t6 := v1 * v2
  let t7 := v * v
  let t8 := t4 * t7
  let t9 := v2 * v2
  let t10 := v2 * v3
  let t11 := v1 * v3
  let t12 := t3 * v2
  let t13 := v3 * v3
  let w1 := dv3 * t2 * (v * (t11 + t12 - v2) - t4 * v1 * v3) +
      dv1 * t2 * (t8 - t4 * t5 + t5 * v) +
      dv2 * t2 * (v * (t6 + v3 - t3 * v3) - t4 * v1 * v2)
  let w2 := dv1 * t2 * (v * (t6 - v3 + t3 * v3) - t4 * v1 * v2) +
      dv2 * t2 * (t8 - t4 * t9 + t9 * v) +
      dv3 * t2 * (v * (t10 + v1 - t3 * v1) - t4 * v2 * v3)
  let w3 := dv2 * t2 * (v * (t10 - v1 + t3 * v1) - t4 * v2 * v3) +
      dv1 * t2 * (v * (t11 - t12 + v2) - t4 * v1 * v3) +
      dv3 * t2 * (t8 - t4 * t13 + t13 * v)
  ⟨w1, w2, w3⟩

/-- `RotationDiffConversionTraits<LocalAngularVelocity, EulerAnglesZyxDiff,
EulerAnglesZyx>::convert` (lines 289-299): reads `roll()` and `pitch()` of
the rotation and all three rates, with `t2 = sin(phi)`, `t3 = cos(phi)`,
`t4 = cos(theta)`. -/
def convertEulerAnglesZyx (eulerAngles eulerAnglesDiff : EulerAnglesZyx) :
    LocalAngularVelocity RotationUsage.ACTIVE :=
  let phi := eulerAngles.roll
  let theta := eulerAngles.pitch
  let dphi := eulerAnglesDiff.roll
  let dtheta := eulerAnglesDiff.pitch
  let dpsi := eulerAnglesDiff.yaw
  let t2 := Real.sin phi
  let t3 := Real.cos phi
  let t4 := Real.cos theta
  ⟨dphi - dpsi * Real.sin theta, dtheta * t3 + dpsi * t2 * t4,
   -dtheta * t2 + dpsi * t3 * t4⟩

/-- `RotationDiffConversionTraits<LocalAngularVelocity, EulerAnglesXyzDiff,
EulerAnglesXyz>::convert` (lines 305-315): reads `pitch()` and `yaw()` of
the rotation and all three rates, with `t2 = cos(gamma)`, `t3 = cos(beta)`,
`t4 = sin(gamma)`. -/
def convertEulerAnglesXyz (eulerAngles eulerAnglesDiff : EulerAnglesXyz) :
    LocalAngularVelocity RotationUsage.ACTIVE :=
  let beta := eulerAngles.pitch
  let gamma := eulerAngles.yaw
  let dalpha := eulerAnglesDiff.roll
  let dbeta := eulerAnglesDiff.pitch
  let dgamma := eulerAnglesDiff.yaw
  let t2 := Real.cos gamma
  let t3 := Real.cos beta
  let t4 := Real.sin gamma
  ⟨dbeta * t4 + dalpha * t2 * t3, dbeta * t2 - dalpha * t3 * t4,
   dgamma + dalpha * Real.sin beta⟩

/-! Formulas transcribed from the specification text, to be compared with
the conversions transcribed from the source. -/

/-- The spec's quaternion kinematics formula, written out componentwise:
`2·H̄·q̇` with `H̄` the displayed 3×4 sign pattern over `(w,x,y,z)` and `q̇`
the `(x,y,z,w)`-ordered derivative component vector. -/
def specQuaternionOmega (q dq : Quat) : Vec3 :=
  ⟨2 * (-q.x * dq.x + q.w * dq.y + q.z * dq.z - q.y * dq.w),
   2 * (-q.y * dq.x - q.z * dq.y + q.w * dq.z + q.x * dq.w),
   2 * (-q.z * dq.x + q.y * dq.y - q.x * dq.z + q.w * dq.w)⟩

/-- The spec's rotation-vector formula: with magnitude `a = ‖v‖`,
`t2 = 1/a³`, `t3 = cos a`, `t4 = sin a`, `t7 = a²`, `t8 = t4·t7`, and the
three displayed component expressions. -/
def specRotationVectorOmega (rv drv : Vec3) : Vec3 :=
  let a := rv.norm
  let v1 := rv.x
  let v2 := rv.y
  let v3 := rv.z
  let dv1 := drv.x
  let dv2 := drv.y
  let dv3 := drv.z
  let t2 := 1 / a ^ 3
  let t3 := Real.cos a
  let t4 := Real.sin a
  let t7 := a ^ 2
  let t8 := t4 * t7
  ⟨dv3 * t2 * (a * (v1 * v3 + t3 * v2 - v2) - t4 * v1 * v3) +
     dv1 * t2 * (t8 - t4 * v1 ^ 2 + v1 ^ 2 * a) +
     dv2 * t2 * (a * (v1 * v2 + v3 - t3 * v3) - t4 * v1 * v2),
   dv1 * t2 * (a * (v1 * v2 - v3 + t3 * v3) - t4 * v1 * v2) +
     dv2 * t2 * (t8 - t4 * v2 ^ 2 + v2 ^ 2 * a) +
     dv3 * t2 * (a * (v2 * v3 + v1 - t3 * v1) - t4 * v2 * v3),
   dv2 * t2 * (a * (v2 * v3 - v1 + t3 * v1) - t4 * v2 * v3) +
     dv1 * t2 * (a * (v1 * v3 - t3 * v2 + v2) - t4 * v1 * v3) +
     dv3 * t2 * (t8 - t4 * v3 ^ 2 + v3 ^ 2 * a)⟩

/-- The spec's Euler-ZYX formula: `w1 = φ̇ − ψ̇·sin θ`,
`w2 = θ̇·cos φ + ψ̇·sin φ·cos θ`, `w3 = −θ̇·sin φ + ψ̇·cos φ·cos θ`. -/
def specEulerZyxOmega (phi theta dphi dtheta dpsi : ℝ) : Vec3 :=
  ⟨dphi - dpsi * Real.sin theta,
   dtheta * Real.cos phi + dpsi * Real.sin phi * Real.cos theta,
   -dtheta * Real.sin phi + dpsi * Real.cos phi * Real.cos theta⟩

/-- The spec's angle-axis formula `w = n·θ̇ + ṅ·sin θ + (n × ṅ)·(1−cos θ)`,
written componentwise with the cross product expanded. -/
def specAngleAxisOmega (n : Vec3) (theta dtheta : ℝ) (dn : Vec3) : Vec3 :=
  ⟨n.x * dtheta + dn.x * Real.sin theta +
     (n.y * dn.z - n.z * dn.y) * (1 - Real.cos theta),
   n.y * dtheta + dn.y * Real.sin theta +
     (n.z * dn.x - n.x * dn.z) * (1 - Real.cos theta),
   n.z * dtheta + dn.z * Real.sin theta +
     (n.x * dn.y - n.y * dn.x) * (1 - Real.cos theta)⟩

/-! Theorems. -/

open Filter Topology

/-- Value of the rotation-vector conversion on the radial path
`rv = (a, 0, 0)` for `a > 0`: the first angular-velocity component is the
first derivative component exactly, and the other two are trigonometric
blends of the remaining derivative components. -/
lemma convertRotationVector_axis_path (a d1 d2 d3 : ℝ) (ha : 0 < a) :
    convertRotationVector ⟨a, 0, 0⟩ ⟨d1, d2, d3⟩ =
      ⟨d1, d2 * (Real.sin a / a) + d3 * ((1 - Real.cos a) / a),
       d2 * ((Real.cos a - 1) / a) + d3 * (Real.sin a / a)⟩ := by
  have hnorm : Vec3.norm ⟨a, 0, 0⟩ = a := by
    simp only [Vec3.norm, mul_zero, add_zero]
    exact Real.sqrt_mul_self ha.le
  have ha' : a ≠ 0 := ha.ne'
  simp only [convertRotationVector, hnorm, LocalAngularVelocity.mk.injEq]
  refine ⟨?_, ?_, ?_⟩ <;> field_simp <;> ring

/-- `sin a / a → 1` as `a → 0` from the right (slope of `sin` at `0`). -/
lemma tendsto_sin_div_right :
    Tendsto (fun a : ℝ => Real.sin a / a) (nhdsWithin 0 (Set.Ioi 0)) (nhds 1) := by
  have h : HasDerivAt Real.sin 1 0 := by simpa using Real.hasDerivAt_sin 0
  have h2 := hasDerivAt_iff_tendsto_slope.mp h
  have h3 : nhdsWithin (0 : ℝ) (Set.Ioi 0) ≤ nhdsWithin 0 {(0 : ℝ)}ᶜ :=
    nhdsWithin_mono 0 fun x hx => Set.mem_compl_singleton_iff.mpr (ne_of_gt hx)
  exact (h2.mono_left h3).congr fun x => by
    rw [slope_def_field, Real.sin_zero]; ring

/-- `(1 - cos a) / a → 0` as `a → 0` from the right (slope of `cos` at `0`). -/
lemma tendsto_one_sub_cos_div_right :
    Tendsto (fun a : ℝ => (1 - Real.cos a) / a) (nhdsWithin 0 (Set.Ioi 0))
      (nhds 0) := by
  have h : HasDerivAt Real.cos 0 0 := by simpa using Real.hasDerivAt_cos 0
  have h2 := hasDerivAt_iff_tendsto_slope.mp h
  have h3 : nhdsWithin (0 : ℝ) (Set.Ioi 0) ≤ nhdsWithin 0 {(0 : ℝ)}ᶜ :=
    nhdsWithin_mono 0 fun x hx => Set.mem_compl_singleton_iff.mpr (ne_of_gt hx)
  have h4 := ((h2.mono_left h3).neg).congr
    (fun x => show -slope Real.cos 0 x = (1 - Real.cos x) / x by
      rw [slope_def_field, Real.cos_zero]; ring)
  simpa using h4

/-- `(cos a - 1) / a → 0` as `a → 0` from the right. -/
lemma tendsto_cos_sub_one_div_right :
    Tendsto (fun a : ℝ => (Real.cos a - 1) / a) (nhdsWithin 0 (Set.Ioi 0))
      (nhds 0) := by
  have h4 := tendsto_one_sub_cos_div_right.neg.congr
    (fun x => show -((1 - Real.cos x) / x) = (Real.cos x - 1) / x by ring)
  simpa using h4

/-- Along the radial path `rv = (a, 0, 0)`, `a → 0⁺`, with a fixed
derivative `(d1, d2, d3)`, the three components of the rotation-vector
conversion converge to `(d1, d2, d3)`. -/
lemma rv_axis_tendsto (d1 d2 d3 : ℝ) :
    Tendsto (fun a : ℝ => (convertRotationVector ⟨a, 0, 0⟩ ⟨d1, d2, d3⟩).x)
        (nhdsWithin 0 (Set.Ioi 0)) (nhds d1) ∧
      Tendsto (fun a : ℝ => (convertRotationVector ⟨a, 0, 0⟩ ⟨d1, d2, d3⟩).y)
        (nhdsWithin 0 (Set.Ioi 0)) (nhds d2) ∧
      Tendsto (fun a : ℝ => (convertRotationVector ⟨a, 0, 0⟩ ⟨d1, d2, d3⟩).z)
        (nhdsWithin 0 (Set.Ioi 0)) (nhds d3) := by
  have hx : Filter.EventuallyEq (nhdsWithin (0 : ℝ) (Set.Ioi 0))
      (fun _ : ℝ => d1)
      (fun a : ℝ => (convertRotationVector ⟨a, 0, 0⟩ ⟨d1, d2, d3⟩).x) :=
    eventually_mem_nhdsWithin.mono fun a ha => by
      show d1 = (convertRotationVector ⟨a, 0, 0⟩ ⟨d1, d2, d3⟩).x
      rw [convertRotationVector_axis_path a d1 d2 d3 (Set.mem_Ioi.mp ha)]
  have hy : Filter.EventuallyEq (nhdsWithin (0 : ℝ) (Set.Ioi 0))
      (fun a : ℝ => d2 * (Real.sin a / a) + d3 * ((1 - Real.cos a) / a))
      (fun a : ℝ => (convertRotationVector ⟨a, 0, 0⟩ ⟨d1, d2, d3⟩).y) :=
    eventually_mem_nhdsWithin.mono fun a ha => by
      show d2 * (Real.sin a / a) + d3 * ((1 - Real.cos a) / a) =
        (convertRotationVector ⟨a, 0, 0⟩ ⟨d1, d2, d3⟩).y
      rw [convertRotationVector_axis_path a d1 d2 d3 (Set.mem_Ioi.mp ha)]
  have hz : Filter.EventuallyEq (nhdsWithin (0 : ℝ) (Set.Ioi 0))
      (fun a : ℝ => d2 * ((Real.cos a - 1) / a) + d3 * (Real.sin a / a))
      (fun a : ℝ => (convertRotationVector ⟨a, 0, 0⟩ ⟨d1, d2, d3⟩).z) :=
    eventually_mem_nhdsWithin.mono fun a ha => by
      show d2 * ((Real.cos a - 1) / a) + d3 * (Real.sin a / a) =
        (convertRotationVector ⟨a, 0, 0⟩ ⟨d1, d2, d3⟩).z
      rw [convertRotationVector_axis_path a d1 d2 d3 (Set.mem_Ioi.mp ha)]
  have hy0 : Tendsto
      (fun a : ℝ => d2 * (Real.sin a / a) + d3 * ((1 - Real.cos a) / a))
      (nhdsWithin 0 (Set.Ioi 0)) (nhds (d2 * 1 + d3 * 0)) :=
    (tendsto_const_nhds.mul tendsto_sin_div_right).add
      (tendsto_const_nhds.mul tendsto_one_sub_cos_div_right)
  have hz0 : Tendsto
      (fun a : ℝ => d2 * ((Real.cos a - 1) / a) + d3 * (Real.sin a / a))
      (nhdsWithin 0 (Set.Ioi 0)) (nhds (d2 * 0 + d3 * 1)) :=
    (tendsto_const_nhds.mul tendsto_cos_sub_one_div_right).add
      (tendsto_const_nhds.mul tendsto_sin_div_right)
  refine ⟨tendsto_const_nhds.congr' hx, ?_, ?_⟩
  · exact (by simpa using hy0 : Tendsto _ _ (nhds d2)).congr' hy
  · exact (by simpa using hz0 : Tendsto _ _ (nhds d3)).congr' hz

/-- Claim C2: the unit-quaternion conversion returns exactly `2·H̄·q̇` with
`H̄` the fixed 3×4 sign pattern over the rotation quaternion's `(w,x,y,z)`
components and `q̇` the derivative quaternion's `(x,y,z,w)`-ordered
component vector. -/
theorem quaternion_conversion_eq_spec_formula (q dq : Quat) :
    convertQuaternion q dq =
      LocalAngularVelocity.ofVec3 (specQuaternionOmega q dq) := by
  simp only [convertQuaternion, specQuaternionOmega, Quat.vector, Vec4.dot,
    LocalAngularVelocity.ofVec3, LocalAngularVelocity.mk.injEq]
  refine ⟨by ring, by ring, by ring⟩

/-- Claim C3: the rotation-vector conversion computes exactly the spec's
expanded closed form with `t2 = 1/a³`, `t3 = cos a`, `t4 = sin a`,
`t8 = sin(a)·a²` and the three displayed cyclic component expressions. -/
theorem rotation_vector_conversion_eq_spec_formula (rv drv : Vec3) :
    convertRotationVector rv drv =
      LocalAngularVelocity.ofVec3 (specRotationVectorOmega rv drv) := by
  simp only [convertRotationVector, specRotationVectorOmega,
    LocalAngularVelocity.ofVec3, LocalAngularVelocity.mk.injEq]
  refine ⟨by ring, by ring, by ring⟩

/-- Claim C6: the Euler-ZYX conversion returns exactly
`w1 = φ̇ − ψ̇·sin θ`, `w2 = θ̇·cos φ + ψ̇·sin φ·cos θ`,
`w3 = −θ̇·sin φ + ψ̇·cos φ·cos θ`; at the identity rotation with rates
`(1,2,3)` it returns exactly `(1,2,3)`. -/
theorem euler_zyx_conversion_eq_spec_formula :
    (∀ r p yw dr dp dy : ℝ,
        convertEulerAnglesZyx ⟨r, p, yw⟩ ⟨dr, dp, dy⟩ =
          LocalAngularVelocity.ofVec3 (specEulerZyxOmega r p dr dp dy)) ∧
      convertEulerAnglesZyx ⟨0, 0, 0⟩ ⟨1, 2, 3⟩ = ⟨1, 2, 3⟩ := by
  constructor
  · intro r p yw dr dp dy
    simp only [convertEulerAnglesZyx, specEulerZyxOmega,
      LocalAngularVelocity.ofVec3, LocalAngularVelocity.mk.injEq]
  · simp [convertEulerAnglesZyx, Real.sin_zero, Real.cos_zero]

/-- Claim C7: the passive rotation-matrix conversion computes
`Ω̂ = Rᵗ·Ṗ`, extracts the angular-velocity vector from that skew matrix
and tags the result ACTIVE although both inputs are PASSIVE. -/
theorem rotation_matrix_passive_conversion (R dP : Mat3) :
    convertRotationMatrixPassive R dP =
        LocalAngularVelocity.ofVec3
          (getVectorFromSkewMatrix (Mat3.mul R.transpose dP)) ∧
      LocalAngularVelocity.usageOf (convertRotationMatrixPassive R dP) =
        RotationUsage.ACTIVE :=
  ⟨rfl, rfl⟩

/-- Claim C8: the angle-axis conversion returns exactly
`w = n·θ̇ + ṅ·sin θ + skew(n)·ṅ·(1−cos θ)` with no special case at
`θ = 0`; at `θ = 0` the axis-rate terms vanish and the result is `n·θ̇`
exactly, for every axis, axis-rate and angle-rate. -/
theorem angle_axis_conversion_eq_spec_formula (theta : ℝ) (n : Vec3)
    (dtheta : ℝ) (dn : Vec3) :
    convertAngleAxis theta n dtheta dn =
        LocalAngularVelocity.ofVec3 (specAngleAxisOmega n theta dtheta dn) ∧
      convertAngleAxis 0 n dtheta dn =
        LocalAngularVelocity.ofVec3 (n.smul dtheta) := by
  constructor
  · simp only [convertAngleAxis, specAngleAxisOmega, Vec3.add, Vec3.smul,
      Mat3.mulVec, getSkewMatrixFromVector, LocalAngularVelocity.ofVec3,
      LocalAngularVelocity.mk.injEq]
    refine ⟨by ring, by ring, by ring⟩
  · simp only [convertAngleAxis, Vec3.add, Vec3.smul, Mat3.mulVec,
      getSkewMatrixFromVector, LocalAngularVelocity.ofVec3,
      LocalAngularVelocity.mk.injEq, Real.sin_zero, Real.cos_zero]
    refine ⟨by ring, by ring, by ring⟩

/-- Claim C9: for every angular-velocity value `v`, starting from the zero
value, `accumulateAdd v` followed by `accumulateSubtract v` yields the zero
value again. -/
theorem accumulate_add_sub_cancel {u : RotationUsage}
    (v : LocalAngularVelocity u) :
    ((@LocalAngularVelocity.zero u).accumulateAdd v).accumulateSubtract v =
      LocalAngularVelocity.zero := by
  simp [LocalAngularVelocity.zero, LocalAngularVelocity.accumulateAdd,
    LocalAngularVelocity.accumulateSubtract]

/-- Claim C10: the Euler-ZYX conversion never reads the rotation's yaw
angle, and the Euler-XYZ conversion never reads the rotation's roll angle:
varying only those angles leaves the result unchanged for every rate
triple. -/
theorem euler_conversions_ignore_angles :
    (∀ (r p yw yw2 : ℝ) (d : EulerAnglesZyx),
        convertEulerAnglesZyx ⟨r, p, yw⟩ d = convertEulerAnglesZyx ⟨r, p, yw2⟩ d) ∧
      ∀ (r r2 p yw : ℝ) (d : EulerAnglesXyz),
        convertEulerAnglesXyz ⟨r, p, yw⟩ d = convertEulerAnglesXyz ⟨r2, p, yw⟩ d :=
  ⟨fun _ _ _ _ _ => rfl, fun _ _ _ _ _ => rfl⟩

/-- Claim C4 counterexample: with the fixed nonzero derivative `(0, 1, 0)`,
as the rotation-vector magnitude goes to `0` along `rv = (a, 0, 0)`,
`a → 0⁺`, the conversion's components converge to the finite limit
`(0, 1, 0)` — the result does not diverge. -/
theorem rotation_vector_limit_is_finite :
    Tendsto (fun a : ℝ => (convertRotationVector ⟨a, 0, 0⟩ ⟨0, 1, 0⟩).x)
        (nhdsWithin 0 (Set.Ioi 0)) (nhds 0) ∧
      Tendsto (fun a : ℝ => (convertRotationVector ⟨a, 0, 0⟩ ⟨0, 1, 0⟩).y)
        (nhdsWithin 0 (Set.Ioi 0)) (nhds 1) ∧
      Tendsto (fun a : ℝ => (convertRotationVector ⟨a, 0, 0⟩ ⟨0, 1, 0⟩).z)
        (nhdsWithin 0 (Set.Ioi 0)) (nhds 0) :=
  rv_axis_tendsto 0 1 0

/-- Claim C4 (amended): the rotation-vector conversion contains no guard
for zero magnitude and divides by `‖v‖³`; however, over the reals the
singularity is removable: as the magnitude goes to `0` along a radial path
with a fixed derivative, the result converges to that derivative instead
of diverging. -/
theorem rotation_vector_no_guard_removable_singularity (d1 d2 d3 : ℝ) :
    Tendsto (fun a : ℝ => (convertRotationVector ⟨a, 0, 0⟩ ⟨d1, d2, d3⟩).x)
        (nhdsWithin 0 (Set.Ioi 0)) (nhds d1) ∧
      Tendsto (fun a : ℝ => (convertRotationVector ⟨a, 0, 0⟩ ⟨d1, d2, d3⟩).y)
        (nhdsWithin 0 (Set.Ioi 0)) (nhds d2) ∧
      Tendsto (fun a : ℝ => (convertRotationVector ⟨a, 0, 0⟩ ⟨d1, d2, d3⟩).z)
        (nhdsWithin 0 (Set.Ioi 0)) (nhds d3) :=
  rv_axis_tendsto d1 d2 d3

/-- Claim C5 counterexample: `operator+=` combines an ACTIVE value with a
PASSIVE value and silently computes the componentwise sum — the mixed
combination is not rejected. -/
theorem mixed_usage_accumulate_is_computed :
    LocalAngularVelocity.accumulateAdd
        (⟨1, 2, 3⟩ : LocalAngularVelocity RotationUsage.ACTIVE)
        (⟨4, 5, 6⟩ : LocalAngularVelocity RotationUsage.PASSIVE) =
      (⟨5, 7, 9⟩ : LocalAngularVelocity RotationUsage.ACTIVE) := by
  simp only [LocalAngularVelocity.accumulateAdd, LocalAngularVelocity.mk.injEq]
  norm_num

/-- Claim C5 (amended): the base-class `add`/`sub` accept only operands of
the same usage convention, but the member `operator+=`/`operator-=` are
templated over an arbitrary other type: combining an ACTIVE with a PASSIVE
angular velocity through them is silently computed componentwise at
runtime, not rejected. -/
theorem accumulate_ops_mix_usages (u1 u2 : RotationUsage) (a b c d e f : ℝ) :
    LocalAngularVelocity.accumulateAdd (⟨a, b, c⟩ : LocalAngularVelocity u1)
          (⟨d, e, f⟩ : LocalAngularVelocity u2) =
        (⟨a + d, b + e, c + f⟩ : LocalAngularVelocity u1) ∧
      LocalAngularVelocity.accumulateSubtract
          (⟨a, b, c⟩ : LocalAngularVelocity u1)
          (⟨d, e, f⟩ : LocalAngularVelocity u2) =
        (⟨a - d, b - e, c - f⟩ : LocalAngularVelocity u1) :=
  ⟨rfl, rfl⟩

/-- Claim C1: for all seven conversions, a derivative whose components are
all zero yields the zero angular velocity exactly, for every non-singular
rotation argument (rotation-vector magnitude nonzero, Euler pitch not at
`±π/2`). -/
theorem zero_derivative_yields_zero (q : Quat) (R Rp : Mat3) (theta : ℝ)
    (n rv : Vec3) (hrv : rv.norm ≠ 0)
    (zyx : EulerAnglesZyx) (hz1 : zyx.pitch ≠ Real.pi / 2)
    (hz2 : zyx.pitch ≠ -(Real.pi / 2))
    (xyz : EulerAnglesXyz) (hx1 : xyz.pitch ≠ Real.pi / 2)
    (hx2 : xyz.pitch ≠ -(Real.pi / 2)) :
    convertQuaternion q ⟨0, 0, 0, 0⟩ = LocalAngularVelocity.zero ∧
      convertRotationMatrixActive R Mat3.zero = LocalAngularVelocity.zero ∧
      convertRotationMatrixPassive Rp Mat3.zero = LocalAngularVelocity.zero ∧
      convertAngleAxis theta n 0 ⟨0, 0, 0⟩ = LocalAngularVelocity.zero ∧
      convertRotationVector rv ⟨0, 0, 0⟩ = LocalAngularVelocity.zero ∧
      convertEulerAnglesZyx zyx ⟨0, 0, 0⟩ = LocalAngularVelocity.zero ∧
      convertEulerAnglesXyz xyz ⟨0, 0, 0⟩ = LocalAngularVelocity.zero := by
  refine ⟨?_, ?_, ?_, ?_, ?_, ?_, ?_⟩
  · simp only [convertQuaternion, Quat.vector, Vec4.dot,
      LocalAngularVelocity.ofVec3, LocalAngularVelocity.zero,
      LocalAngularVelocity.mk.injEq]
    refine ⟨by ring, by ring, by ring⟩
  · simp only [convertRotationMatrixActive, Mat3.mul, Mat3.transpose,
      Mat3.zero, getVectorFromSkewMatrix, LocalAngularVelocity.ofVec3,
      LocalAngularVelocity.zero, LocalAngularVelocity.mk.injEq]
    refine ⟨by ring, by ring, by ring⟩
  · simp only [convertRotationMatrixPassive, RotationMatrix.inverted,
      Mat3.mul, Mat3.transpose, Mat3.zero, getVectorFromSkewMatrix,
      LocalAngularVelocity.ofVec3, LocalAngularVelocity.zero,
      LocalAngularVelocity.mk.injEq]
    refine ⟨by ring, by ring, by ring⟩
  · simp only [convertAngleAxis, Vec3.add, Vec3.smul, Mat3.mulVec,
      getSkewMatrixFromVector, LocalAngularVelocity.ofVec3,
      LocalAngularVelocity.zero, LocalAngularVelocity.mk.injEq]
    refine ⟨by ring, by ring, by ring⟩
  · simp only [convertRotationVector, LocalAngularVelocity.zero,
      LocalAngularVelocity.mk.injEq]
    refine ⟨by ring, by ring, by ring⟩
  · simp only [convertEulerAnglesZyx, LocalAngularVelocity.zero,
      LocalAngularVelocity.mk.injEq]
    refine ⟨by ring, by ring, by ring⟩
  · simp only [convertEulerAnglesXyz, LocalAngularVelocity.zero,
      LocalAngularVelocity.mk.injEq]
    refine ⟨by ring, by ring, by ring⟩

/-- Claim C1 witness: the hypotheses of `zero_derivative_yields_zero` hold
at the concrete non-singular inputs (rotation vector `(1,0,0)`, Euler
angles all zero), and its conclusion follows there. -/
theorem zero_derivative_yields_zero_witness :
    Vec3.norm ⟨1, 0, 0⟩ ≠ 0 ∧ (0 : ℝ) ≠ Real.pi / 2 ∧
      (0 : ℝ) ≠ -(Real.pi / 2) ∧
      (convertQuaternion ⟨1, 0, 0, 0⟩ ⟨0, 0, 0, 0⟩ = LocalAngularVelocity.zero ∧
        convertRotationMatrixActive ⟨1, 0, 0, 0, 1, 0, 0, 0, 1⟩ Mat3.zero =
          LocalAngularVelocity.zero ∧
        convertRotationMatrixPassive ⟨1, 0, 0, 0, 1, 0, 0, 0, 1⟩ Mat3.zero =
          LocalAngularVelocity.zero ∧
        convertAngleAxis 0 ⟨1, 0, 0⟩ 0 ⟨0, 0, 0⟩ = LocalAngularVelocity.zero ∧
        convertRotationVector ⟨1, 0, 0⟩ ⟨0, 0, 0⟩ = LocalAngularVelocity.zero ∧
        convertEulerAnglesZyx ⟨0, 0, 0⟩ ⟨0, 0, 0⟩ = LocalAngularVelocity.zero ∧
        convertEulerAnglesXyz ⟨0, 0, 0⟩ ⟨0, 0, 0⟩ = LocalAngularVelocity.zero) :=
  have h1 : Vec3.norm ⟨1, 0, 0⟩ ≠ 0 := by simp [Vec3.norm]
  have h2 : (0 : ℝ) ≠ Real.pi / 2 := ne_of_lt Real.pi_div_two_pos
  have h3 : (0 : ℝ) ≠ -(Real.pi / 2) :=
    ne_of_gt (neg_lt_zero.mpr Real.pi_div_two_pos)
  ⟨h1, h2, h3,
    zero_derivative_yields_zero ⟨1, 0, 0, 0⟩ ⟨1, 0, 0, 0, 1, 0, 0, 0, 1⟩
      ⟨1, 0, 0, 0, 1, 0, 0, 0, 1⟩ 0 ⟨1, 0, 0⟩ ⟨1, 0, 0⟩ h1 ⟨0, 0, 0⟩ h2 h3
      ⟨0, 0, 0⟩ h2 h3⟩

end Kindr
